import Mathlib

/-!
Shallow embedding of the dispzap backend core: the per-account Connection
state machine (`src/Backend/src/modules/whatsapp/whatsappClient.js`), the
ComplianceEngine delay generator
(`src/Backend/src/modules/compliance/engine.js`) and the Dispatcher's
delay-configuration handling
(`src/Backend/src/modules/dispatch/dispatcher.js`).

JavaScript numbers are embedded as exact arithmetic: timestamps and
millisecond durations as `Int`, `Math.random()` outcomes and float-valued
delay quantities as `Rat`.  Randomness and the protocol provider are passed
in explicitly as parameters, so every run of the embedded operations is one
outcome of the original nondeterministic code.
-/

namespace Dispzap

/-- The `STATES` enum of `whatsappClient.js`. -/
inductive State where
  | INIT
  | AUTHENTICATING
  | CONNECTED
  | READY
  | IDLE
  | SENDING
  | COOLDOWN
  | DISCONNECTED
  | ERROR
deriving DecidableEq, Repr

open State

/-- The `allowed` adjacency table of `_transition` (whatsappClient.js lines 117-127). -/
def allowedTargets : State → List State
  | INIT => [AUTHENTICATING, ERROR]
  | AUTHENTICATING => [CONNECTED, ERROR, DISCONNECTED]
  | CONNECTED => [READY, ERROR, DISCONNECTED]
  | READY => [SENDING, IDLE, COOLDOWN, ERROR, DISCONNECTED]
  | IDLE => [READY, SENDING, COOLDOWN, ERROR, DISCONNECTED]
  | SENDING => [COOLDOWN, READY, ERROR, DISCONNECTED]
  | COOLDOWN => [READY, IDLE, ERROR, DISCONNECTED]
  | DISCONNECTED => [AUTHENTICATING, ERROR]
  | ERROR => [AUTHENTICATING, DISCONNECTED]

/-- Result of one `_transition` call: the new `status` field and the
`status` event emitted on the EventEmitter (its `status` and `reason`
payload fields), `none` when no event is emitted. -/
structure TransOut where
  status : State
  emitted : Option (State × String)
deriving DecidableEq, Repr

/-- `_transition(nextState, reason)` of whatsappClient.js: early-return when
the requested state equals the current one; move to `nextState` when the
adjacency table allows it; otherwise force `ERROR` and emit an
`invalid_transition` status event. -/
def transition (current next : State) (reason : String) : TransOut :=
  if current = next then ⟨current, none⟩
  else if next ∈ allowedTargets current then ⟨next, some (next, reason)⟩
  else ⟨ERROR, some (ERROR, "invalid_transition")⟩

/-- A JavaScript field value: a string or a number. -/
inductive JVal where
  | str (s : String)
  | num (n : Int)
deriving DecidableEq, Repr

/-- A JavaScript object as an ordered field list; object spread `{...a, ...b}`
is modelled as `a ++ b`, with the later binding of a key winning on lookup. -/
abbrev Obj := List (String × JVal)

/-- Field lookup on an `Obj`: the last binding of the key wins, matching the
override order of object spread. -/
def objGet (o : Obj) (k : String) : Option JVal :=
  o.foldl (fun acc kv => if kv.1 = k then some kv.2 else acc) none

/-- `Map.get`: the (unique) binding for a key in an association list. -/
def mapGet (m : List (String × Obj)) (k : String) : Option Obj :=
  match m with
  | [] => none
  | kv :: rest => if kv.1 = k then some kv.2 else mapGet rest k

/-- `Map.set`: overwrite the binding if present, else append it. -/
def mapSet (m : List (String × Obj)) (k : String) (v : Obj) : List (String × Obj) :=
  if m.any (fun kv => kv.1 = k) then
    m.map (fun kv => if kv.1 = k then (k, v) else kv)
  else m ++ [(k, v)]

/-- The mutable fields of a `WhatsAppClient` that the send path touches,
together with its compliance configuration. -/
structure Client where
  status : State
  cooldownUntil : Option Int
  sendHistory : List Int
  maxMessagesPerHour : Nat
  maxMessagesPerDay : Nat
  messageTracker : List (String × Obj)
deriving DecidableEq, Repr

/-- Apply `_transition` to a client, keeping only the resulting status. -/
def tr (c : Client) (next : State) (reason : String) : Client :=
  { c with status := (transition c.status next reason).status }

/-- `_randomDelay(min, max)` = `Math.floor(min + Math.random() * (max - min))`,
with the `Math.random()` outcome `r` passed in. -/
def randomDelay (lo hi : Int) (r : Rat) : Int :=
  ⌊(lo : Rat) + r * ((hi : Rat) - (lo : Rat))⌋

/-- `_setCooldownUntil(timestamp, reason)`: add a jitter drawn by
`_randomDelay(3000, 12000)` and transition to `COOLDOWN`. -/
def setCooldownUntil (c : Client) (timestamp : Int) (reason : String) (r : Rat) : Client :=
  let jitter := randomDelay 3000 12000 r
  tr { c with cooldownUntil := some (timestamp + jitter) } COOLDOWN reason

/-- `_enforceCooldown()`: `Except.error` is the thrown cooldown error (with
the remaining milliseconds); `Except.ok` is the fall-through.  The guard
`if (!this.cooldownUntil) return` treats both `null` and `0` as falsy. -/
def enforceCooldown (c : Client) (now : Int) : Except (Client × Int) Client :=
  match c.cooldownUntil with
  | none => .ok c
  | some cu =>
    if cu = 0 then .ok c
    else if now < cu then
      .error (tr c COOLDOWN "cooldown_active", cu - now)
    else
      let c1 : Client := { c with cooldownUntil := none }
      if c1.status = COOLDOWN then .ok (tr c1 READY "cooldown_complete") else .ok c1

/-- The typed errors thrown on the send path. -/
inductive SendErr where
  | notReady (st : State)
  | cooldownActive (remaining : Int)
  | rateLimitHour
  | rateLimitDay
  | numberNotRegistered (raw : String)
  | validateFailure (msg : String)
  | providerFailure (msg : String)
deriving DecidableEq, Repr

/-- `_enforceRateLimit()`: prune `sendHistory` to the trailing 24h, count the
trailing hour and day, and throw a rate-limit error (engaging a cooldown)
when a cap is reached.  When the in-window list is empty (reachable only with
a cap of 0) the JavaScript arithmetic produces `NaN`, which every later
cooldown guard treats as absent; that is modelled as `none`. -/
def enforceRateLimit (c : Client) (now : Int) (r : Rat) : Except (Client × SendErr) Client :=
  let hourWindow := now - 60 * 60 * 1000
  let dayWindow := now - 24 * 60 * 60 * 1000
  let hist := c.sendHistory.filter (fun ts => dayWindow ≤ ts)
  let c1 : Client := { c with sendHistory := hist }
  let hourList := hist.filter (fun ts => hourWindow ≤ ts)
  if c1.maxMessagesPerHour ≤ hourList.length then
    match hourList.head? with
    | some oldest => .error (setCooldownUntil c1 (oldest + 60 * 60 * 1000) "rate_limit_hour" r, .rateLimitHour)
    | none => .error (tr { c1 with cooldownUntil := none } COOLDOWN "rate_limit_hour", .rateLimitHour)
  else if c1.maxMessagesPerDay ≤ hist.length then
    match hist.head? with
    | some oldest => .error (setCooldownUntil c1 (oldest + 24 * 60 * 60 * 1000) "rate_limit_day" r, .rateLimitDay)
    | none => .error (tr { c1 with cooldownUntil := none } COOLDOWN "rate_limit_day", .rateLimitDay)
  else .ok c1

/-- The successful return value of `sendMessage`. -/
structure SendOk where
  messageId : Option String
  jid : String
deriving DecidableEq, Repr

/-- One outcome of the environment a `sendMessage` call interacts with: the
clock readings, the `Math.random()` draw used by a rate-limit jitter, and the
provider's responses (`Except.error` models a thrown provider exception). -/
structure SendEnv where
  now : Int
  sendTime : Int
  jitterRand : Rat
  validate : Except String (String × Bool)
  providerSend : Except String (Option String × Option String)
deriving Repr

/-- `sendMessage(rawNumber, message, correlation)` of whatsappClient.js.
Returns the updated client, the result (`Except.error` models a rejection),
and whether `provider.sendMessage` was invoked. -/
def sendMessage (c : Client) (env : SendEnv) (rawNumber : String) (correlation : Obj) :
    Client × Except SendErr SendOk × Bool :=
  let c0 := if c.status = IDLE then tr c READY "send_prepare" else c
  if c0.status ≠ READY then
    (c0, .error (.notReady c0.status), false)
  else
    match enforceCooldown c0 env.now with
    | .error (c1, remaining) => (c1, .error (.cooldownActive remaining), false)
    | .ok c1 =>
      match enforceRateLimit c1 env.now env.jitterRand with
      | .error (c2, e) => (c2, .error e, false)
      | .ok c2 =>
        let c3 := tr c2 SENDING "send_attempt"
        match env.validate with
        | .error m => (tr c3 ERROR "send_failure", .error (.validateFailure m), false)
        | .ok (jid, exists?) =>
          if !exists? then
            let c4 := tr c3 ERROR "number_not_registered"
            (tr c4 ERROR "send_failure", .error (.numberNotRegistered rawNumber), false)
          else
            match env.providerSend with
            | .error m => (tr c3 ERROR "send_failure", .error (.providerFailure m), true)
            | .ok (messageId?, remoteJid?) =>
              let remoteJid := remoteJid?.getD jid
              let trackedRecord : Obj :=
                correlation ++ [("phone", JVal.str rawNumber),
                                ("jid", JVal.str remoteJid),
                                ("sentAt", JVal.num env.sendTime)]
              let c4 := match messageId? with
                | some mid =>
                  { c3 with messageTracker := mapSet c3.messageTracker mid trackedRecord }
                | none => c3
              let c5 : Client := { c4 with sendHistory := c4.sendHistory ++ [env.sendTime] }
              (tr c5 READY "send_success", .ok ⟨messageId?, remoteJid⟩, true)

/-- Result of the synchronous phase of `enterCooldown`: the updated client
and the duration handed to `setTimeout` (`none` when the early return for a
falsy duration fires and no timer is scheduled). -/
structure CooldownStart where
  client : Client
  scheduledWait : Option Int
deriving DecidableEq, Repr

/-- The synchronous phase of `enterCooldown(durationMs, reason)`: early
return on a falsy duration, otherwise raise `cooldownUntil` to
`max(existing || 0, now + durationMs)`, transition to `COOLDOWN` and schedule
the wake-up `durationMs` later. -/
def enterCooldownStart (c : Client) (now durationMs : Int) (reason : String) : CooldownStart :=
  if durationMs = 0 then ⟨c, none⟩
  else
    let cu := max (c.cooldownUntil.getD 0) (now + durationMs)
    ⟨tr { c with cooldownUntil := some cu } COOLDOWN reason, some durationMs⟩

/-- The continuation of `enterCooldown` after the awaited timer fires:
transition back to `READY` only if the status is still `COOLDOWN`. -/
def enterCooldownResume (c : Client) : Client :=
  if c.status = COOLDOWN then tr c READY "cooldown_complete" else c

/-- The mutable configuration of a `ComplianceEngine`. -/
structure ComplianceEngine where
  minDelay : Rat
  maxDelay : Rat
deriving DecidableEq, Repr

/-- The `ComplianceEngine` constructor with the `config.compliance` defaults
(`minDelay || 30000`, `maxDelay || 90000`). -/
def initialEngine : ComplianceEngine := ⟨30000, 90000⟩

/-- `setDelayRange({minDelay, maxDelay})`: each bound is overridden only when
a finite number is supplied (modelled as `some`), then the pair is swapped if
inverted. -/
def setDelayRange (e : ComplianceEngine) (minD maxD : Option Rat) : ComplianceEngine :=
  let e1 : ComplianceEngine := match minD with
    | some m => { e with minDelay := m }
    | none => e
  let e2 : ComplianceEngine := match maxD with
    | some m => { e1 with maxDelay := m }
    | none => e1
  if e2.maxDelay < e2.minDelay then ⟨e2.maxDelay, e2.minDelay⟩ else e2

/-- Step (4) of `Dispatcher.dispatch`: `this.compliance.setDelayRange(delayConfig)`
applied to the dispatcher's single engine instance.  A call without a
per-dispatch override passes the default `{}`, i.e. `(none, none)`. -/
def dispatchDelaySetup (e : ComplianceEngine) (delayConfig : Option Rat × Option Rat) :
    ComplianceEngine :=
  setDelayRange e delayConfig.1 delayConfig.2

/-- `getVariableDelay()` of engine.js, with the Box-Muller raw samples
`z = sqrt(-2 ln u) * cos(2 pi v)` of the successive invocations passed in as
a list.  Each invocation normalizes `num = z/10 + 0.5`; when `num` falls
outside `[0, 1]` the code executes `num = this.getVariableDelay()`, so the
recursive call's final delay is assigned to `num` and the enclosing frame
still computes `floor(minDelay + num * range)` on it.  `none` models
exhausting the sample list. -/
def getVariableDelay (minDelay maxDelay : Rat) : List Rat → Option Int
  | [] => none
  | z :: rest =>
    let num := z / 10 + 1/2
    let resampled : Option Rat :=
      if 1 < num ∨ num < 0 then (getVariableDelay minDelay maxDelay rest).map (fun d => (d : Rat))
      else some num
    resampled.map (fun n => ⌊minDelay + n * (maxDelay - minDelay)⌋)

/-- `getTypingDelay(message)` of engine.js: per-character delay
`100 + r * 50` for the `Math.random()` outcome `r`, times the message
length, capped at 15000 ms. -/
def getTypingDelay (r : Rat) (len : Nat) : Rat :=
  min ((len : Rat) * (100 + r * 50)) 15000

/-- The `message.status` provider-event handler installed by
`_bindProviderEvents`: look the provider message id up in `messageTracker`
(spread of a missed lookup contributes no fields) and emit a
`message_status` event spreading the tracked record, then the incoming
update, then `chipId`. -/
def onMessageStatus (chipId : String) (tracker : List (String × Obj)) (update : Obj) : Obj :=
  let tracked : Obj :=
    match objGet update "messageId" with
    | some (JVal.str i) => (mapGet tracker i).getD []
    | _ => []
  tracked ++ update ++ [("chipId", JVal.str chipId)]

/-! Theorems -/

/-- Concrete `Math.random` / provider outcomes used by example instantiations:
validation succeeds, the provider send succeeds with message id `m1`. -/
def envW : SendEnv := ⟨7200000, 7200001, 1/2, .ok ("jid1", true), .ok (some "m1", some "rj1")⟩

/-- C1 the claim fails on the code: when the normalized Box-Muller sample
falls outside `[0,1]` (raw sample `z = 6` gives `num = 1.1`), the code
assigns the recursive call's finished delay to `num` and re-applies the
range mapping to it, so with `minDelay = 30000`, `maxDelay = 90000` and the
resample landing at `num = 0.5` (raw sample `z = 0`, inner delay `60000`)
the call returns `30000 + 60000 * 60000 = 3600030000`, far above
`maxDelay`. -/
theorem C1_resample_escapes_range :
    getVariableDelay 30000 90000 [6, 0] = some 3600030000 ∧
    ¬ (3600030000 : Int) ≤ 90000 :=
  ⟨by norm_num [getVariableDelay], by decide⟩

/-- C2 counterexample to the claim as stated: the pair `(READY, READY)` is
not present in the transition table, yet `_transition` early-returns as a
no-op — the status stays `READY`, never becomes `ERROR`, and no status
event is emitted. -/
theorem C2_counterexample :
    READY ∉ allowedTargets READY ∧
    (transition READY READY "manual").status = READY ∧
    (transition READY READY "manual").status ≠ ERROR ∧
    (transition READY READY "manual").emitted = none := by
  refine ⟨by decide, rfl, by decide, rfl⟩

/-- C2 amended: for every pair `(cur, next)` not present in the
allowed-transition table with `next ≠ cur`, `_transition` forces status
`ERROR`, never the requested state, and emits an `invalid_transition`
status event. -/
theorem C2_invalid_transition_forces_error (cur next : State) (reason : String)
    (h1 : next ∉ allowedTargets cur) (h2 : cur ≠ next) :
    (transition cur next reason).status = ERROR ∧
    (transition cur next reason).emitted = some (ERROR, "invalid_transition") ∧
    (transition cur next reason).status ≠ next := by
  have hne : next ≠ ERROR := by
    revert h1 h2; cases cur <;> cases next <;> decide
  unfold transition
  rw [if_neg h2, if_neg h1]
  exact ⟨rfl, rfl, fun h => hne h.symm⟩

/-- C2 witness: the pair `(COOLDOWN, CONNECTED)` is outside the table and
distinct, and the transition lands in `ERROR` with the fault event. -/
theorem C2_invalid_transition_witness :
    (CONNECTED ∉ allowedTargets COOLDOWN ∧ COOLDOWN ≠ CONNECTED) ∧
    ((transition COOLDOWN CONNECTED "manual").status = ERROR ∧
     (transition COOLDOWN CONNECTED "manual").emitted = some (ERROR, "invalid_transition") ∧
     (transition COOLDOWN CONNECTED "manual").status ≠ CONNECTED) :=
  ⟨by decide, C2_invalid_transition_forces_error COOLDOWN CONNECTED "manual" (by decide) (by decide)⟩

/-- C3 for every client whose status is neither `READY` nor `IDLE`,
`sendMessage` rejects with the not-ready state error, leaves the client
unchanged, and never invokes the provider's send operation. -/
theorem C3_sendMessage_not_ready (c : Client) (env : SendEnv) (raw : String) (corr : Obj)
    (h1 : c.status ≠ READY) (h2 : c.status ≠ IDLE) :
    sendMessage c env raw corr = (c, .error (.notReady c.status), false) := by
  simp [sendMessage, h1, h2]

/-- C3 witness: a client stuck in `SENDING` rejects and the provider send
flag stays `false` even though the provider would have answered. -/
theorem C3_sendMessage_not_ready_witness :
    ((SENDING : State) ≠ READY ∧ (SENDING : State) ≠ IDLE) ∧
    sendMessage ⟨SENDING, none, [], 50, 300, []⟩ envW "5511999" [] =
      (⟨SENDING, none, [], 50, 300, []⟩, .error (.notReady SENDING), false) :=
  ⟨by decide, C3_sendMessage_not_ready ⟨SENDING, none, [], 50, 300, []⟩ envW "5511999" []
    (by decide) (by decide)⟩

/-- C5 counterexample to the claim as stated: `enterCooldown(0)` hits the
falsy-duration early return, so the client neither records a cooldown nor
transitions to `COOLDOWN`; and from `DISCONNECTED` (where `COOLDOWN` is not
an allowed target) the transition lands in `ERROR`, not `COOLDOWN`. -/
theorem C5_counterexample :
    enterCooldownStart ⟨READY, none, [], 50, 300, []⟩ 1000 0 "post_send_cooldown" =
      ⟨⟨READY, none, [], 50, 300, []⟩, none⟩ ∧
    (READY : State) ≠ COOLDOWN ∧
    (enterCooldownStart ⟨DISCONNECTED, none, [], 50, 300, []⟩ 1000 500
        "post_send_cooldown").client.status = ERROR :=
  ⟨rfl, by decide, rfl⟩

/-- C5 amended: for every nonzero duration and every client whose status
admits `COOLDOWN` (`READY`, `IDLE`, `SENDING`, or already `COOLDOWN`),
`enterCooldown` sets `cooldownUntil` to `max(existing or 0, now + durationMs)`,
moves to `COOLDOWN`, schedules the wake-up exactly `durationMs` later (so
`READY` is restored no earlier than `durationMs` after entry), and the
wake-up transitions back to `READY` only when the status is still
`COOLDOWN`. -/
theorem C5_enterCooldown_amended (c : Client) (now dur : Int) (reason : String)
    (hdur : dur ≠ 0)
    (hst : c.status = READY ∨ c.status = IDLE ∨ c.status = SENDING ∨ c.status = COOLDOWN) :
    (enterCooldownStart c now dur reason).client.status = COOLDOWN ∧
    (enterCooldownStart c now dur reason).client.cooldownUntil =
      some (max (c.cooldownUntil.getD 0) (now + dur)) ∧
    (enterCooldownStart c now dur reason).scheduledWait = some dur ∧
    (enterCooldownResume (enterCooldownStart c now dur reason).client).status = READY ∧
    ∀ c' : Client, c'.status ≠ COOLDOWN → enterCooldownResume c' = c' := by
  refine ⟨?_, ?_, ?_, ?_, fun c' hc' => by simp [enterCooldownResume, hc']⟩ <;>
    rcases hst with h | h | h | h <;>
      simp [enterCooldownStart, hdur, tr, transition, enterCooldownResume, h, allowedTargets]

/-- C5 witness: a `READY` client with an existing cooldown mark at 500
entering a 250ms cooldown at time 1000 lands in `COOLDOWN` with
`cooldownUntil = max 500 1250 = 1250` and resumes to `READY`. -/
theorem C5_enterCooldown_witness :
    ((250 : Int) ≠ 0 ∧
      ((READY : State) = READY ∨ (READY : State) = IDLE ∨ (READY : State) = SENDING ∨
        (READY : State) = COOLDOWN)) ∧
    ((enterCooldownStart ⟨READY, some 500, [], 50, 300, []⟩ 1000 250 "r").client.status =
        COOLDOWN ∧
      (enterCooldownStart ⟨READY, some 500, [], 50, 300, []⟩ 1000 250 "r").client.cooldownUntil =
        some (max ((some (500 : Int)).getD 0) (1000 + 250)) ∧
      (enterCooldownStart ⟨READY, some 500, [], 50, 300, []⟩ 1000 250 "r").scheduledWait =
        some 250 ∧
      (enterCooldownResume
          (enterCooldownStart ⟨READY, some 500, [], 50, 300, []⟩ 1000 250 "r").client).status =
        READY ∧
      ∀ c' : Client, c'.status ≠ COOLDOWN → enterCooldownResume c' = c') :=
  ⟨⟨by decide, Or.inl rfl⟩,
    C5_enterCooldown_amended ⟨READY, some 500, [], 50, 300, []⟩ 1000 250 "r" (by decide)
      (Or.inl rfl)⟩

/-- C6 counterexample to the claim as stated: after a dispatch call carrying
the override `{minDelay: 1000, maxDelay: 2000}`, a subsequent dispatch call
with no override (the default `{}`) leaves the shared engine at the
override bounds, not the construction-time `(30000, 90000)`, and its
variable delay is computed from those persisting bounds. -/
theorem C6_counterexample :
    dispatchDelaySetup (dispatchDelaySetup initialEngine (some 1000, some 2000)) (none, none) =
      ⟨1000, 2000⟩ ∧
    (⟨1000, 2000⟩ : ComplianceEngine) ≠ initialEngine ∧
    getVariableDelay 1000 2000 [0] ≠ getVariableDelay 30000 90000 [0] := by
  have h1 : getVariableDelay 1000 2000 [0] = some 1500 := by norm_num [getVariableDelay]
  have h2 : getVariableDelay 30000 90000 [0] = some 60000 := by norm_num [getVariableDelay]
  refine ⟨rfl, by decide, by rw [h1, h2]; decide⟩

/-- Any `setDelayRange` call leaves the bounds normalized. -/
theorem setDelayRange_normalized (e : ComplianceEngine) (a b : Option Rat) :
    (setDelayRange e a b).minDelay ≤ (setDelayRange e a b).maxDelay := by
  unfold setDelayRange
  dsimp only
  split
  · exact le_of_lt (by assumption)
  · exact not_lt.mp (by assumption)

/-- C6 amended: a per-call delay override is merged into the dispatcher's
single ComplianceEngine and persists.  A dispatch call without an override
leaves whatever bounds an earlier call merged (normalized bounds are a
fixed point of the no-override setup), so later delays are computed from
the most recently merged override, not the construction-time bounds. -/
theorem C6_override_persists (e : ComplianceEngine) (h : e.minDelay ≤ e.maxDelay) :
    dispatchDelaySetup e (none, none) = e ∧
    ∀ a b : Rat,
      dispatchDelaySetup (dispatchDelaySetup e (some a, some b)) (none, none) =
        dispatchDelaySetup e (some a, some b) := by
  have key : ∀ e' : ComplianceEngine, e'.minDelay ≤ e'.maxDelay →
      dispatchDelaySetup e' (none, none) = e' := by
    intro e' h'
    unfold dispatchDelaySetup setDelayRange
    dsimp only
    rw [if_neg (not_lt.mpr h')]
  exact ⟨key e h, fun a b => key _ (setDelayRange_normalized e (some a) (some b))⟩

/-- C6 witness: the construction-time engine is normalized, so the
no-override fixed-point and persistence facts apply to it. -/
theorem C6_override_persists_witness :
    initialEngine.minDelay ≤ initialEngine.maxDelay ∧
    (dispatchDelaySetup initialEngine (none, none) = initialEngine ∧
      ∀ a b : Rat,
        dispatchDelaySetup (dispatchDelaySetup initialEngine (some a, some b)) (none, none) =
          dispatchDelaySetup initialEngine (some a, some b)) :=
  ⟨by norm_num [initialEngine], C6_override_persists initialEngine (by norm_num [initialEngine])⟩

/-- C7 for every outcome of the per-character draw, `getTypingDelay` is
non-decreasing in the text length and never exceeds the 15000 ms cap. -/
theorem C7_typing_delay_mono_capped (r : Rat) (l1 l2 : Nat)
    (h0 : 0 ≤ r) (h1 : r < 1) (hlen : l1 ≤ l2) :
    getTypingDelay r l1 ≤ getTypingDelay r l2 ∧
    ∀ len : Nat, getTypingDelay r len ≤ 15000 := by
  constructor
  · unfold getTypingDelay
    refine min_le_min ?_ le_rfl
    have hc : (0 : Rat) ≤ 100 + r * 50 := by
      have : (0 : Rat) ≤ r * 50 := mul_nonneg h0 (by norm_num)
      linarith
    exact mul_le_mul_of_nonneg_right (by exact_mod_cast hlen) hc
  · intro len
    exact min_le_right _ _

/-- C7 witness: a concrete draw and a concrete pair of lengths. -/
theorem C7_typing_delay_witness :
    ((0 : Rat) ≤ 1/2 ∧ (1/2 : Rat) < 1 ∧ (3 : Nat) ≤ 5) ∧
    (getTypingDelay (1/2) 3 ≤ getTypingDelay (1/2) 5 ∧
      ∀ len : Nat, getTypingDelay (1/2) len ≤ 15000) :=
  ⟨by norm_num, C7_typing_delay_mono_capped (1/2) 3 5 (by norm_num) (by norm_num) (by norm_num)⟩

/-- C8 a `message.status` event whose provider message id is not tracked in
`messageTracker` is still republished: the emitted payload carries exactly
the incoming event's fields plus `chipId`. -/
theorem C8_untracked_event_forwarded (chipId : String) (tracker : List (String × Obj))
    (update : Obj) (i : String)
    (hid : objGet update "messageId" = some (JVal.str i))
    (huntracked : mapGet tracker i = none) :
    onMessageStatus chipId tracker update = update ++ [("chipId", JVal.str chipId)] := by
  simp only [onMessageStatus, hid, huntracked, Option.getD_none, List.nil_append]

/-- C8 witness: an update for id `m9` that the tracker (holding only
`other`) does not know is forwarded with its own fields plus `chipId`. -/
theorem C8_untracked_event_witness :
    (objGet [("messageId", JVal.str "m9"), ("status", JVal.str "READ")] "messageId" =
        some (JVal.str "m9") ∧
      mapGet [("other", ([] : Obj))] "m9" = none) ∧
    onMessageStatus "chip1" [("other", ([] : Obj))]
        [("messageId", JVal.str "m9"), ("status", JVal.str "READ")] =
      [("messageId", JVal.str "m9"), ("status", JVal.str "READ"),
        ("chipId", JVal.str "chip1")] :=
  ⟨⟨by decide, by decide⟩,
    C8_untracked_event_forwarded "chip1" [("other", [])]
      [("messageId", JVal.str "m9"), ("status", JVal.str "READ")] "m9" (by decide) (by decide)⟩

/-- The jitter `_randomDelay(3000, 12000)` lies in `[3000, 12000]` for every
`Math.random()` outcome. -/
theorem randomDelay_jitter_bounds (r : Rat) (h0 : 0 ≤ r) (h1 : r < 1) :
    3000 ≤ randomDelay 3000 12000 r ∧ randomDelay 3000 12000 r ≤ 12000 := by
  unfold randomDelay
  constructor
  · rw [Int.le_floor]
    have : (0 : Rat) ≤ r * (12000 - 3000) := mul_nonneg h0 (by norm_num)
    push_cast
    linarith
  · have hlt : ((3000 : Int) : Rat) + r * (((12000 : Int) : Rat) - ((3000 : Int) : Rat)) <
        ((12000 : Int) : Rat) := by
      have : r * ((12000 : Rat) - 3000) < 1 * ((12000 : Rat) - 3000) :=
        mul_lt_mul_of_pos_right h1 (by norm_num)
      push_cast
      linarith
    exact le_of_lt (Int.floor_lt.mpr hlt)

/-- The head of a sorted list is a lower bound of its elements. -/
theorem head?_le_of_sorted (l : List Int) (hs : l.Sorted (· ≤ ·)) (a : Int)
    (ha : l.head? = some a) : ∀ b ∈ l, a ≤ b := by
  intro b hb
  cases l with
  | nil => exact absurd hb (List.not_mem_nil b)
  | cons x t =>
    simp only [List.head?, Option.some.injEq] at ha
    subst ha
    rw [List.sorted_cons] at hs
    rcases List.mem_cons.mp hb with rfl | hbt
    · exact le_refl b
    · exact hs.1 b hbt

/-- C4 on a sendable client with no pending cooldown whose trailing-hour
send count has reached `maxMessagesPerHour = N ≥ 1`, the next `sendMessage`
rejects with the hourly rate-limit error, moves the client to `COOLDOWN`,
and sets `cooldownUntil` to the earliest trailing-hour send timestamp plus
one hour plus a jitter in `[3000, 12000]` ms — a value at least `now`. -/
theorem C4_rate_limit_cooldown (c : Client) (env : SendEnv) (raw : String) (corr : Obj) (N : Nat)
    (hstat : c.status = READY ∨ c.status = IDLE)
    (hcd : c.cooldownUntil = none)
    (hN : c.maxMessagesPerHour = N) (hN1 : 1 ≤ N)
    (hsorted : c.sendHistory.Sorted (· ≤ ·))
    (hr0 : 0 ≤ env.jitterRand) (hr1 : env.jitterRand < 1)
    (hcount : ((c.sendHistory.filter (fun ts => env.now - 24 * 60 * 60 * 1000 ≤ ts)).filter
        (fun ts => env.now - 60 * 60 * 1000 ≤ ts)).length = N) :
    ∃ oldest jitter : Int,
      ((c.sendHistory.filter (fun ts => env.now - 24 * 60 * 60 * 1000 ≤ ts)).filter
          (fun ts => env.now - 60 * 60 * 1000 ≤ ts)).head? = some oldest ∧
      (∀ t ∈ (c.sendHistory.filter (fun ts => env.now - 24 * 60 * 60 * 1000 ≤ ts)).filter
          (fun ts => env.now - 60 * 60 * 1000 ≤ ts), oldest ≤ t) ∧
      3000 ≤ jitter ∧ jitter ≤ 12000 ∧
      (sendMessage c env raw corr).2.1 = .error .rateLimitHour ∧
      (sendMessage c env raw corr).1.status = COOLDOWN ∧
      (sendMessage c env raw corr).1.cooldownUntil =
        some (oldest + 60 * 60 * 1000 + jitter) ∧
      env.now ≤ oldest + 60 * 60 * 1000 + jitter := by
  obtain ⟨oldest, hold, homem⟩ :
      ∃ o, ((c.sendHistory.filter (fun ts => env.now - 24 * 60 * 60 * 1000 ≤ ts)).filter
          (fun ts => env.now - 60 * 60 * 1000 ≤ ts)).head? = some o ∧
        o ∈ (c.sendHistory.filter (fun ts => env.now - 24 * 60 * 60 * 1000 ≤ ts)).filter
          (fun ts => env.now - 60 * 60 * 1000 ≤ ts) := by
    cases hh : (c.sendHistory.filter (fun ts => env.now - 24 * 60 * 60 * 1000 ≤ ts)).filter
        (fun ts => env.now - 60 * 60 * 1000 ≤ ts) with
    | nil => rw [hh] at hcount; simp at hcount; omega
    | cons x t => exact ⟨x, rfl, List.mem_cons_self x t⟩
  have hmin : ∀ t ∈ (c.sendHistory.filter (fun ts => env.now - 24 * 60 * 60 * 1000 ≤ ts)).filter
      (fun ts => env.now - 60 * 60 * 1000 ≤ ts), oldest ≤ t :=
    head?_le_of_sorted _ ((hsorted.filter _).filter _) _ hold
  have hjb := randomDelay_jitter_bounds env.jitterRand hr0 hr1
  have hwindow : env.now - 60 * 60 * 1000 ≤ oldest := by
    have := List.of_mem_filter homem
    simpa using this
  have hc0 : (if c.status = IDLE then tr c READY "send_prepare" else c) =
      { c with status := READY } := by
    rcases hstat with h | h
    · rw [if_neg (by rw [h]; decide)]
      cases c
      simp_all
    · rw [if_pos h]
      simp [tr, transition, h, allowedTargets]
  have hcond : c.maxMessagesPerHour ≤
      ((c.sendHistory.filter (fun ts => env.now - 24 * 60 * 60 * 1000 ≤ ts)).filter
        (fun ts => env.now - 60 * 60 * 1000 ≤ ts)).length := by
    rw [hN, hcount]
  have hsend : sendMessage c env raw corr =
      ({ c with status := COOLDOWN,
                cooldownUntil := some (oldest + 60 * 60 * 1000 +
                  randomDelay 3000 12000 env.jitterRand),
                sendHistory := c.sendHistory.filter
                  (fun ts => env.now - 24 * 60 * 60 * 1000 ≤ ts) },
        .error .rateLimitHour, false) := by
    unfold sendMessage
    rw [hc0]
    dsimp only
    rw [if_neg (by simp)]
    unfold enforceCooldown
    dsimp only [hcd]
    rw [hcd]
    unfold enforceRateLimit
    dsimp only
    rw [if_pos hcond, hold]
    unfold setCooldownUntil tr transition
    dsimp only
    rw [if_neg (by decide : ¬ (READY = COOLDOWN)),
      if_pos (by decide : COOLDOWN ∈ allowedTargets READY)]
  refine ⟨oldest, randomDelay 3000 12000 env.jitterRand, hold, hmin, hjb.1, hjb.2, ?_, ?_, ?_, ?_⟩
  · rw [hsend]
  · rw [hsend]
  · rw [hsend]
  · linarith [hjb.1]

/-- C4 witness: a `READY` client with cap 1 and one send at 4000000 inside
the trailing hour of `now = 7200000` rejects, cools down, and its
`cooldownUntil` is the earliest in-window send plus one hour plus the
jitter. -/
theorem C4_rate_limit_cooldown_witness :
    ((READY : State) = READY ∨ (READY : State) = IDLE) ∧
    (Client.mk READY none [4000000] 1 300 []).cooldownUntil = none ∧
    (Client.mk READY none [4000000] 1 300 []).maxMessagesPerHour = 1 ∧
    (1 : Nat) ≤ 1 ∧
    (Client.mk READY none [4000000] 1 300 []).sendHistory.Sorted (· ≤ ·) ∧
    (0 : Rat) ≤ envW.jitterRand ∧ envW.jitterRand < 1 ∧
    ((([4000000] : List Int).filter (fun ts => envW.now - 24 * 60 * 60 * 1000 ≤ ts)).filter
        (fun ts => envW.now - 60 * 60 * 1000 ≤ ts)).length = 1 ∧
    (∃ oldest jitter : Int,
      ((([4000000] : List Int).filter (fun ts => envW.now - 24 * 60 * 60 * 1000 ≤ ts)).filter
          (fun ts => envW.now - 60 * 60 * 1000 ≤ ts)).head? = some oldest ∧
      (∀ t ∈ (([4000000] : List Int).filter
            (fun ts => envW.now - 24 * 60 * 60 * 1000 ≤ ts)).filter
          (fun ts => envW.now - 60 * 60 * 1000 ≤ ts), oldest ≤ t) ∧
      3000 ≤ jitter ∧ jitter ≤ 12000 ∧
      (sendMessage (Client.mk READY none [4000000] 1 300 []) envW "5511" []).2.1 =
        .error .rateLimitHour ∧
      (sendMessage (Client.mk READY none [4000000] 1 300 []) envW "5511" []).1.status =
        COOLDOWN ∧
      (sendMessage (Client.mk READY none [4000000] 1 300 []) envW "5511" []).1.cooldownUntil =
        some (oldest + 60 * 60 * 1000 + jitter) ∧
      envW.now ≤ oldest + 60 * 60 * 1000 + jitter) :=
  ⟨Or.inl rfl, rfl, rfl, le_refl 1, by decide, by norm_num [envW], by norm_num [envW],
    by norm_num [envW],
    C4_rate_limit_cooldown (Client.mk READY none [4000000] 1 300 []) envW "5511" [] 1
      (Or.inl rfl) rfl rfl (le_refl 1) (by decide) (by norm_num [envW]) (by norm_num [envW])
      (by norm_num [envW])⟩

/-- A thrown cooldown error leaves `sendHistory` untouched. -/
theorem enforceCooldown_error_hist (c : Client) (now : Int) (p : Client × Int)
    (h : enforceCooldown c now = .error p) : p.1.sendHistory = c.sendHistory := by
  unfold enforceCooldown at h
  dsimp only at h
  split at h
  · exact Except.noConfusion h
  · split at h
    · exact Except.noConfusion h
    · split at h
      · cases h; rfl
      · split at h <;> exact Except.noConfusion h

/-- Falling through the cooldown check leaves `sendHistory` untouched. -/
theorem enforceCooldown_ok_hist (c : Client) (now : Int) (c' : Client)
    (h : enforceCooldown c now = .ok c') : c'.sendHistory = c.sendHistory := by
  unfold enforceCooldown at h
  dsimp only at h
  split at h
  · cases h; rfl
  · split at h
    · cases h; rfl
    · split at h
      · exact Except.noConfusion h
      · split at h <;> (cases h; rfl)

/-- A thrown rate-limit error leaves `sendHistory` at the 24h-pruned
history: entries are removed, never added. -/
theorem enforceRateLimit_error_hist (c : Client) (now : Int) (r : Rat) (p : Client × SendErr)
    (h : enforceRateLimit c now r = .error p) :
    p.1.sendHistory = c.sendHistory.filter (fun ts => now - 24 * 60 * 60 * 1000 ≤ ts) := by
  unfold enforceRateLimit at h
  dsimp only at h
  split at h
  · split at h <;> (cases h; rfl)
  · split at h
    · split at h <;> (cases h; rfl)
    · exact Except.noConfusion h

/-- Passing the rate-limit check leaves `sendHistory` at the 24h-pruned
history. -/
theorem enforceRateLimit_ok_hist (c : Client) (now : Int) (r : Rat) (c' : Client)
    (h : enforceRateLimit c now r = .ok c') :
    c'.sendHistory = c.sendHistory.filter (fun ts => now - 24 * 60 * 60 * 1000 ≤ ts) := by
  unfold enforceRateLimit at h
  dsimp only at h
  split at h
  · split at h <;> exact Except.noConfusion h
  · split at h
    · split at h <;> exact Except.noConfusion h
    · cases h; rfl

/-- C10 `sendMessage` appends a timestamp to `sendHistory` exactly when the
provider send completes successfully: on every rejection each remaining
history entry was already present before the call, and on success the new
history is the 24h-pruned old history with the send time appended. -/
theorem C10_history_append_iff_success (c : Client) (env : SendEnv) (raw : String) (corr : Obj) :
    (∀ e : SendErr, (sendMessage c env raw corr).2.1 = .error e →
      ∀ t ∈ (sendMessage c env raw corr).1.sendHistory, t ∈ c.sendHistory) ∧
    (∀ ok : SendOk, (sendMessage c env raw corr).2.1 = .ok ok →
      (sendMessage c env raw corr).1.sendHistory =
        c.sendHistory.filter (fun ts => env.now - 24 * 60 * 60 * 1000 ≤ ts) ++
          [env.sendTime]) := by
  unfold sendMessage
  obtain ⟨c0, hg, hh⟩ : ∃ c0, (if c.status = IDLE then tr c READY "send_prepare" else c) = c0 ∧
      c0.sendHistory = c.sendHistory := ⟨_, rfl, by split <;> rfl⟩
  rw [hg]
  dsimp only
  by_cases hrdy : c0.status = READY
  · rw [if_neg (by simp [hrdy])]
    cases hec : enforceCooldown c0 env.now with
    | error p =>
      obtain ⟨c1, rem⟩ := p
      dsimp only
      constructor
      · intro e _ t ht
        have h1 := enforceCooldown_error_hist c0 env.now (c1, rem) hec
        dsimp only at h1 ht
        rw [h1, hh] at ht
        exact ht
      · intro ok hok
        simp at hok
    | ok c1 =>
      dsimp only
      have h1 := enforceCooldown_ok_hist c0 env.now c1 hec
      cases herl : enforceRateLimit c1 env.now env.jitterRand with
      | error p =>
        obtain ⟨c2, e2⟩ := p
        dsimp only
        constructor
        · intro e _ t ht
          have h2 := enforceRateLimit_error_hist c1 env.now env.jitterRand (c2, e2) herl
          dsimp only at h2 ht
          rw [h2, h1, hh] at ht
          exact List.mem_of_mem_filter ht
        · intro ok hok
          simp at hok
      | ok c2 =>
        dsimp only
        have h2 := enforceRateLimit_ok_hist c1 env.now env.jitterRand c2 herl
        have hsub : ∀ t ∈ c2.sendHistory, t ∈ c.sendHistory := by
          intro t ht
          rw [h2, h1, hh] at ht
          exact List.mem_of_mem_filter ht
        cases hv : env.validate with
        | error m =>
          dsimp only
          constructor
          · intro e _ t ht
            exact hsub t ht
          · intro ok hok
            simp at hok
        | ok pr =>
          obtain ⟨jid, exists?⟩ := pr
          dsimp only
          cases exists? with
          | false =>
            constructor
            · intro e _ t ht
              exact hsub t ht
            · intro ok hok
              simp at hok
          | true =>
            cases hps : env.providerSend with
            | error m =>
              dsimp only
              constructor
              · intro e _ t ht
                exact hsub t ht
              · intro ok hok
                simp at hok
            | ok pr2 =>
              obtain ⟨mid?, rj?⟩ := pr2
              dsimp only
              constructor
              · intro e he
                exact absurd he (by simp)
              · intro ok _
                cases mid? with
                | some mid =>
                  show c2.sendHistory ++ [env.sendTime] = _
                  rw [h2, h1, hh]
                | none =>
                  show c2.sendHistory ++ [env.sendTime] = _
                  rw [h2, h1, hh]
  · rw [if_pos hrdy]
    refine ⟨fun e _ t ht => ?_, fun ok hok => by simp at hok⟩
    dsimp only at ht
    rw [hh] at ht
    exact ht

/-- C10 witness: a blocked client keeps its history inside the old history,
and a successful send appends the send time to the pruned history. -/
theorem C10_history_append_witness :
    (∀ t ∈ (sendMessage (Client.mk SENDING none [111] 50 300 []) envW "x" []).1.sendHistory,
        t ∈ (Client.mk SENDING none [111] 50 300 []).sendHistory) ∧
    (sendMessage (Client.mk READY none [111] 50 300 []) envW "x" []).1.sendHistory =
      (Client.mk READY none [111] 50 300 []).sendHistory.filter
          (fun ts => envW.now - 24 * 60 * 60 * 1000 ≤ ts) ++ [envW.sendTime] :=
  ⟨fun t ht =>
      (C10_history_append_iff_success (Client.mk SENDING none [111] 50 300 []) envW "x" []).1
        (SendErr.notReady SENDING) rfl t ht,
    (C10_history_append_iff_success (Client.mk READY none [111] 50 300 []) envW "x" []).2
      ⟨some "m1", "rj1"⟩ rfl⟩

/-- C9 requesting a transition to the current status is a no-op: the status
field is unchanged and no status event is emitted (in particular the client
does not move to `ERROR`). -/
theorem C9_self_transition_noop (s : State) (reason : String) :
    (transition s s reason).status = s ∧ (transition s s reason).emitted = none := by
  simp [transition]

end Dispzap
